import Mathlib

set_option maxRecDepth 8192

/-!
# Verification of the llm9p core

A shallow embedding of the llm9p program (a 9P2000 file server exposing an
LLM as a filesystem) together with proofs about its behaviour.

The embedding mirrors the Go source:
* `internal/llm` — sessions, the session manager, conversation compaction,
  and the streaming state machine of the backend clients;
* `internal/llmfs` — the virtual files (`ask`, `usage`, `stream/chunk`, …);
* `internal/protocol` — the 9P2000 wire codec and the connection server.

External effects (the actual HTTP / subprocess call to the LLM backend) are
modelled by passing the outcome of the call as an explicit argument, exactly
at the point where the Go code performs the call.  Go machine integers are
modelled as `Nat`/`Int`; byte buffers as `List Nat` with each entry a byte
value.  Go maps are modelled as association lists with lookup / insert /
erase operations.
-/

namespace LLM9P

/-! ## Association-list maps (model of Go maps) -/

def mapLookup {α : Type} (m : List (Nat × α)) (k : Nat) : Option α :=
  match m with
  | [] => none
  | (k', v) :: rest => if k' = k then some v else mapLookup rest k

def mapInsert {α : Type} (m : List (Nat × α)) (k : Nat) (v : α) : List (Nat × α) :=
  match m with
  | [] => [(k, v)]
  | (k', v') :: rest => if k' = k then (k, v) :: rest else (k', v') :: mapInsert rest k v

def mapErase {α : Type} (m : List (Nat × α)) (k : Nat) : List (Nat × α) :=
  match m with
  | [] => []
  | (k', v') :: rest => if k' = k then mapErase rest k else (k', v') :: mapErase rest k

theorem mapLookup_insert_self {α : Type} (m : List (Nat × α)) (k : Nat) (v : α) :
    mapLookup (mapInsert m k v) k = some v := by
  induction m with
  | nil => simp [mapInsert, mapLookup]
  | cons hd tl ih =>
    obtain ⟨k', v'⟩ := hd
    by_cases h : k' = k
    · simp [mapInsert, mapLookup, h]
    · simp [mapInsert, mapLookup, h, ih]

theorem mapLookup_insert_ne {α : Type} (m : List (Nat × α)) (k k' : Nat) (v : α)
    (h : k ≠ k') : mapLookup (mapInsert m k v) k' = mapLookup m k' := by
  induction m with
  | nil => simp [mapInsert, mapLookup, h]
  | cons hd tl ih =>
    obtain ⟨k₀, v₀⟩ := hd
    by_cases h₀ : k₀ = k
    · subst h₀
      simp [mapInsert, mapLookup, h]
    · simp [mapInsert, mapLookup, h₀, ih]

theorem mapLookup_erase_self {α : Type} (m : List (Nat × α)) (k : Nat) :
    mapLookup (mapErase m k) k = none := by
  induction m with
  | nil => simp [mapErase, mapLookup]
  | cons hd tl ih =>
    obtain ⟨k', v'⟩ := hd
    by_cases h : k' = k
    · simp [mapErase, h, ih]
    · simp [mapErase, mapLookup, h, ih]

theorem mapLookup_erase_ne {α : Type} (m : List (Nat × α)) (k k' : Nat)
    (h : k ≠ k') : mapLookup (mapErase m k) k' = mapLookup m k' := by
  induction m with
  | nil => simp [mapErase, mapLookup]
  | cons hd tl ih =>
    obtain ⟨k₀, v₀⟩ := hd
    by_cases h₀ : k₀ = k
    · subst h₀
      simp [mapErase, mapLookup, h, ih]
    · simp [mapErase, mapLookup, h₀, ih]

/-! ## Conversation messages and sessions (`internal/llm`, session.go part) -/

/-- `Message` from `internal/llm/client.go`: role ("system" / "user" /
"assistant") and free-text content. -/
structure Message where
  role : String
  content : String
deriving DecidableEq, Repr

/-- Per-fid session state (`Session` in the session-manager source file):
ordered message list, last response string, token counters. -/
structure Session where
  messages : List Message
  lastResponse : String
  lastTokens : Int
  totalTokens : Int
deriving DecidableEq, Repr

/-- `NewSession`: fresh empty session. -/
def newSession : Session :=
  { messages := [], lastResponse := "", lastTokens := 0, totalTokens := 0 }

/-- `Session.AddMessage`: append a message to the history. -/
def Session.addMessage (s : Session) (role content : String) : Session :=
  { s with messages := s.messages ++ [{ role := role, content := content }] }

/-- `Session.AddTokens`: set `lastTokens` and accumulate `totalTokens`. -/
def Session.addTokens (s : Session) (tokens : Int) : Session :=
  { s with lastTokens := tokens, totalTokens := s.totalTokens + tokens }

/-- `Session.SetLastResponse`. -/
def Session.setLastResponse (s : Session) (response : String) : Session :=
  { s with lastResponse := response }

/-- `Session.Reset`: clear messages, response and counters. -/
def Session.resetSession (s : Session) : Session :=
  { s with messages := [], lastResponse := "", lastTokens := 0, totalTokens := 0 }

/-- The session table of `SessionManager`: fid → session. -/
abbrev SMState := List (Nat × Session)

/-- `SessionManager.GetOrCreate`: return the existing session for the fid or
insert a fresh one.  Returns the session together with the (possibly grown)
table; the Go original returns a pointer into the table. -/
def getOrCreate (sm : SMState) (fid : Nat) : Session × SMState :=
  match mapLookup sm fid with
  | some s => (s, sm)
  | none => (newSession, mapInsert sm fid newSession)

/-- `SessionManager.Remove`. -/
def smRemove (sm : SMState) (fid : Nat) : SMState :=
  mapErase sm fid

/-- `SessionManager.Reset`: `GetOrCreate` then `Session.Reset` (note: this
creates the session if it does not exist yet). -/
def smReset (sm : SMState) (fid : Nat) : SMState :=
  let (s, sm1) := getOrCreate sm fid
  mapInsert sm1 fid s.resetSession

/-- Outcome of the backend's `AskWithHistory` call, passed in explicitly
(the call itself is external I/O). -/
inductive BackendResult where
  | ok (response : String) (tokens : Int)
  | err (msg : String)
deriving DecidableEq, Repr

/-- `SessionManager.Ask`: snapshot the session's history, invoke the
backend's history-aware ask (outcome given by `res`), then on success append
the user prompt and assistant response, update the token counters and store
the response; on error store `"Error: " ++ msg` as the last response and
leave the history untouched. -/
def smAsk (sm : SMState) (fid : Nat) (prompt : String) (res : BackendResult) :
    SMState × Except String String :=
  let (session, sm1) := getOrCreate sm fid
  match res with
  | .err e =>
      (mapInsert sm1 fid (session.setLastResponse ("Error: " ++ e)), .error e)
  | .ok response tokens =>
      let s' := ((((session.addMessage "user" prompt).addMessage
        "assistant" response)).addTokens tokens).setLastResponse response
      (mapInsert sm1 fid s', .ok response)

/-- C1.  For every session table, fid and prompt: on backend success the
session's message list grows by exactly the two entries `user` then
`assistant`, the token counters are updated and the response is stored; on
backend failure the message list and counters are unchanged and the last
response becomes the error text prefixed `"Error: "`, which does not enter
the transcript. -/
theorem smAsk_transcript (sm : SMState) (fid : Nat) (prompt : String)
    (res : BackendResult) :
    (∀ response tokens, res = .ok response tokens →
      mapLookup (smAsk sm fid prompt res).1 fid = some
        { messages := (getOrCreate sm fid).1.messages ++
            [{ role := "user", content := prompt },
             { role := "assistant", content := response }],
          lastResponse := response,
          lastTokens := tokens,
          totalTokens := (getOrCreate sm fid).1.totalTokens + tokens } ∧
      (smAsk sm fid prompt res).2 = .ok response) ∧
    (∀ e, res = .err e →
      mapLookup (smAsk sm fid prompt res).1 fid = some
        { (getOrCreate sm fid).1 with lastResponse := "Error: " ++ e } ∧
      (smAsk sm fid prompt res).2 = .error e) := by
  constructor
  · intro response tokens hres
    subst hres
    constructor
    · simp only [smAsk, Session.addMessage, Session.addTokens, Session.setLastResponse]
      rw [mapLookup_insert_self]
      simp [List.append_assoc]
    · simp [smAsk]
  · intro e hres
    subst hres
    constructor
    · simp only [smAsk, Session.setLastResponse]
      rw [mapLookup_insert_self]
    · simp [smAsk]

/-- Witness for `smAsk_transcript` at concrete inputs (both branches). -/
theorem smAsk_transcript_witness :
    (mapLookup (smAsk [] 2 "Hello!" (.ok "Hi there" 5)).1 2 = some
      { messages := [{ role := "user", content := "Hello!" },
                     { role := "assistant", content := "Hi there" }],
        lastResponse := "Hi there", lastTokens := 5, totalTokens := 5 }) ∧
    (mapLookup (smAsk [] 3 "Hello!" (.err "boom")).1 3 = some
      { messages := [], lastResponse := "Error: boom",
        lastTokens := 0, totalTokens := 0 }) := by
  constructor
  · have h := (smAsk_transcript [] 2 "Hello!" (.ok "Hi there" 5)).1 "Hi there" 5 rfl
    have h1 := h.1
    simp only [getOrCreate, mapLookup, newSession] at h1
    exact h1
  · have h := (smAsk_transcript [] 3 "Hello!" (.err "boom")).2 "boom" rfl
    have h1 := h.1
    simp only [getOrCreate, mapLookup, newSession] at h1
    exact h1

/-! ## Conversation compaction (`Client.Compact` in `internal/llm/client.go`;
`OllamaClient.Compact` is structurally identical) -/

/-- Backend-global conversation state of a client, as used by `Compact`. -/
structure ClientConv where
  messages : List Message
  lastTokens : Int
  totalTokens : Int
deriving DecidableEq, Repr

/-- Outcome of the summarisation request `Compact` sends to the backend:
the summary text and the token usage reported for that request. -/
inductive CompactResult where
  | ok (summary : String) (usageTokens : Int)
  | err (msg : String)
deriving DecidableEq, Repr

/-- Number of non-system messages in a transcript (the quantity the spec's
compaction no-op condition speaks about). -/
def nonSystemCount (msgs : List Message) : Nat :=
  (msgs.filter (fun m => m.role ≠ "system")).length

/-- `Client.Compact`: if the transcript holds fewer than four messages
(counting system messages too — the Go code tests `len(c.messages) < 4`),
return without doing anything; otherwise send the summarisation request
(outcome `res`) and on success replace the whole transcript by the single
synthetic system message and set `totalTokens` to the usage reported by the
summarisation call.  On a backend error the state is unchanged. -/
def clientCompact (c : ClientConv) (res : CompactResult) : ClientConv × Option String :=
  if c.messages.length < 4 then (c, none)
  else
    match res with
    | .err e => (c, some ("compaction failed: " ++ e))
    | .ok summary usage =>
        ({ c with
            messages := [{ role := "system",
                           content := "Previous conversation summary: " ++ summary }],
            totalTokens := usage }, none)

/-- C3 counterexample: a transcript of one system and three non-system
messages has fewer than four non-system messages, yet `Compact` is not a
no-op on it — it replaces the transcript.  (The Go gate counts system
messages too.) -/
theorem clientCompact_noop_counterexample :
    (nonSystemCount [{ role := "system", content := "s" },
                     { role := "user", content := "a" },
                     { role := "assistant", content := "b" },
                     { role := "user", content := "c" }] < 4) ∧
    clientCompact
        { messages := [{ role := "system", content := "s" },
                       { role := "user", content := "a" },
                       { role := "assistant", content := "b" },
                       { role := "user", content := "c" }],
          lastTokens := 1, totalTokens := 10 } (.ok "S" 7) ≠
      ({ messages := [{ role := "system", content := "s" },
                      { role := "user", content := "a" },
                      { role := "assistant", content := "b" },
                      { role := "user", content := "c" }],
          lastTokens := 1, totalTokens := 10 }, none) := by
  constructor
  · decide
  · decide

/-- C3 amended: `Compact` is a no-op exactly when the transcript has fewer
than four messages in total (system messages included); with four or more
messages and a successful summarisation it replaces the entire transcript
with exactly the one synthetic system message
`"Previous conversation summary: <reply>"` and sets the cumulative token
counter to the token usage reported by the summarisation call. -/
theorem clientCompact_spec (c : ClientConv) (res : CompactResult) :
    (c.messages.length < 4 → clientCompact c res = (c, none)) ∧
    (4 ≤ c.messages.length → ∀ summary usage, res = .ok summary usage →
      clientCompact c res =
        ({ messages := [{ role := "system",
                          content := "Previous conversation summary: " ++ summary }],
           lastTokens := c.lastTokens, totalTokens := usage }, none)) := by
  constructor
  · intro h
    simp [clientCompact, h]
  · intro h summary usage hres
    subst hres
    simp [clientCompact, Nat.not_lt.mpr h]

/-- Witness for `clientCompact_spec`: a four-message transcript is compacted
into the single summary message. -/
theorem clientCompact_spec_witness :
    clientCompact
        { messages := [{ role := "user", content := "a" },
                       { role := "assistant", content := "b" },
                       { role := "user", content := "c" },
                       { role := "assistant", content := "d" }],
          lastTokens := 2, totalTokens := 99 } (.ok "S" 7) =
      ({ messages := [{ role := "system",
                        content := "Previous conversation summary: S" }],
         lastTokens := 2, totalTokens := 7 }, none) := by
  have h := (clientCompact_spec
      { messages := [{ role := "user", content := "a" },
                     { role := "assistant", content := "b" },
                     { role := "user", content := "c" },
                     { role := "assistant", content := "d" }],
        lastTokens := 2, totalTokens := 99 } (.ok "S" 7)).2
      (by decide) "S" 7 rfl
  exact h

/-! ## Streaming pipeline (`Client.StartStream` / `ReadStreamChunk` in
`internal/llm/client.go`, `ChunkFile.Read` in `internal/llmfs`) -/

/-- State of the chunk channel: buffered chunks and whether it is closed. -/
structure ChanState where
  buffer : List String
  closed : Bool
deriving DecidableEq, Repr

/-- Streaming-related state of a backend client.  `streamChan = none`
models the nil channel of a client on which `StartStream` was never
invoked. -/
structure StreamClient where
  streaming : Bool
  streamChan : Option ChanState
  messages : List Message
  lastTokens : Int
  totalTokens : Int
deriving DecidableEq, Repr

/-- The client as built by `NewClient`: no stream ever active. -/
def newStreamClient : StreamClient :=
  { streaming := false, streamChan := none, messages := [],
    lastTokens := 0, totalTokens := 0 }

/-- Removing the just-added user message (`c.messages = c.messages[:len-1]`
guarded by `len(c.messages) > 0`). -/
def dropLastMessage (msgs : List Message) : List Message :=
  if msgs.length > 0 then msgs.dropLast else msgs

/-- The final phase of the producer goroutine of `Client.StartStream`
(`internal/llm/client.go`, stream error branch and commit branch), given the
accumulated response text, the token counts and the stream error if any.
Returns the post state and the list of chunks the final phase itself sends:
on a stream error the producer sends the synthesised marker
`"\n[Error: <msg>]"` unconditionally and removes the pending user message;
on success it sends nothing further and commits the accumulated text as an
assistant message, updating the token counters.  In both cases the deferred
cleanup clears the streaming flag and closes the channel. -/
def streamFinish (c : StreamClient) (fullResponse : String) (tokens : Int)
    (streamErr : Option String) : StreamClient × List String :=
  match streamErr with
  | some e =>
      ({ c with
          messages := dropLastMessage c.messages,
          streaming := false,
          streamChan := (c.streamChan.map (fun ch => { ch with closed := true })) },
        ["\n[Error: " ++ e ++ "]"])
  | none =>
      ({ c with
          messages := c.messages ++ [{ role := "assistant", content := fullResponse }],
          lastTokens := tokens,
          totalTokens := c.totalTokens + tokens,
          streaming := false,
          streamChan := (c.streamChan.map (fun ch => { ch with closed := true })) },
        [])

/-- C4 counterexample: a stream that already emitted the content `"Hello"`
and then fails with `"boom"` still gets the synthesised error marker as a
final chunk — contradicting "if content was already emitted, the stream
simply ends without an error chunk". -/
theorem streamFinish_counterexample :
    ("Hello" ≠ "") ∧
    (streamFinish
        { streaming := true, streamChan := some { buffer := [], closed := false },
          messages := [{ role := "user", content := "hi" }],
          lastTokens := 0, totalTokens := 0 }
        "Hello" 0 (some "boom")).2 = ["\n[Error: boom]"] := by
  constructor
  · decide
  · rfl

/-- C4 amended: in the API client's streaming producer, a source failure
always delivers the synthesised `"\n[Error: <msg>]"` marker as the final
chunk — whether or not content chunks were already emitted — and the
pending user message is removed, so the partial content is not committed;
only on a failure-free stream is the accumulated text committed as an
assistant message (with updated token counters) and no error chunk sent. -/
theorem streamFinish_spec (c : StreamClient) (fullResponse : String)
    (tokens : Int) (streamErr : Option String) :
    (∀ e, streamErr = some e →
      (streamFinish c fullResponse tokens streamErr).2 = ["\n[Error: " ++ e ++ "]"] ∧
      (streamFinish c fullResponse tokens streamErr).1.messages =
        dropLastMessage c.messages) ∧
    (streamErr = none →
      (streamFinish c fullResponse tokens streamErr).2 = [] ∧
      (streamFinish c fullResponse tokens streamErr).1.messages =
        c.messages ++ [{ role := "assistant", content := fullResponse }] ∧
      (streamFinish c fullResponse tokens streamErr).1.totalTokens =
        c.totalTokens + tokens) := by
  constructor
  · intro e he
    subst he
    exact ⟨rfl, rfl⟩
  · intro he
    subst he
    exact ⟨rfl, rfl, rfl⟩

/-- Witness for `streamFinish_spec`: both branches at concrete inputs. -/
theorem streamFinish_spec_witness :
    ((streamFinish newStreamClient "x" 3 (some "e")).2 = ["\n[Error: e]"]) ∧
    ((streamFinish newStreamClient "x" 3 none).1.messages =
      [{ role := "assistant", content := "x" }]) := by
  refine ⟨((streamFinish_spec newStreamClient "x" 3 (some "e")).1 "e" rfl).1, ?_⟩
  have h := ((streamFinish_spec newStreamClient "x" 3 none).2 rfl).2.1
  simpa [newStreamClient] using h

/-- Possible outcomes of `ReadStreamChunk`: an immediate value, or blocking
on the channel receive. -/
inductive ChunkOutcome where
  | value (chunk : String) (ok : Bool)
  | blocked
deriving DecidableEq, Repr

/-- `Client.ReadStreamChunk`: a nil channel returns `("", false)` at once;
otherwise the channel receive yields the next buffered chunk, yields
`("", false)` once the channel is closed and drained, and blocks while the
channel is open and empty. -/
def readStreamChunk (c : StreamClient) : ChunkOutcome :=
  match c.streamChan with
  | none => .value "" false
  | some ch =>
      match ch.buffer with
      | chunk :: _ => .value chunk true
      | [] => if ch.closed then .value "" false else .blocked

/-- Result of `ChunkFile.Read`. -/
inductive ChunkRead where
  | eof
  | data (s : String)
  | blocked
deriving DecidableEq, Repr

/-- `ChunkFile.Read` (`stream/chunk`): end-of-stream immediately when no
stream is active; otherwise block for the next chunk and return it, or
end-of-stream when the channel reports not-ok. -/
def chunkFileRead (c : StreamClient) : ChunkRead :=
  if c.streaming = false then .eof
  else
    match readStreamChunk c with
    | .value _ false => .eof
    | .value chunk true => .data chunk
    | .blocked => .blocked

/-- C10.  On a backend on which `StartStream` was never invoked (the state
built by the constructor), `ReadStreamChunk` returns `("", false)`
immediately — it does not block — and a read of `stream/chunk` returns
end-of-stream at once. -/
theorem readStreamChunk_neverStarted :
    readStreamChunk newStreamClient = .value "" false ∧
    readStreamChunk newStreamClient ≠ .blocked ∧
    chunkFileRead newStreamClient = .eof := by
  refine ⟨rfl, ?_, rfl⟩
  decide

/-! ## The `usage` file (`UsageFile.Read` in `internal/llmfs/stream.go`) -/

/-- The generated content of `usage`: `"<total>/<limit>\n"`
(`fmt.Sprintf("%d/%d\n", tokens, limit)`; all characters are ASCII, so
character counts coincide with Go's byte counts). -/
def usageContent (tokens limit : Nat) : String :=
  toString tokens ++ "/" ++ toString limit ++ "\n"

/-- Result of a read on a generated text file. -/
inductive FileRead where
  | eof
  | data (s : String)
deriving DecidableEq, Repr

/-- `UsageFile.Read`: regenerate the content, return EOF at or past its
end, otherwise copy from the offset into the `plen`-byte buffer. -/
def usageRead (tokens limit : Nat) (plen offset : Nat) : FileRead :=
  let content := usageContent tokens limit
  if content.length ≤ offset then .eof
  else .data (((content.drop offset)).take plen)

/-- C9 counterexample: with `totalTokens = 45000` and
`contextLimit = 200000`, reading `usage` at offset 5 yields `"/200000\n"`
(`'/'` is the character at index 5), not `"00000\n"`. -/
theorem usageRead_offset5_counterexample :
    usageRead 45000 200000 100 5 = .data "/200000\n" ∧
    usageRead 45000 200000 100 5 ≠ .data "00000\n" := by
  constructor
  · decide
  · decide

/-- C9 amended: with `totalTokens = 45000` and `contextLimit = 200000`,
reading `usage` at offset 0 into a buffer of at least 13 bytes yields
exactly `"45000/200000\n"`, and reading at offset 5 yields exactly
`"/200000\n"`. -/
theorem usageRead_45000 (plen : Nat) (h : 13 ≤ plen) :
    usageRead 45000 200000 plen 0 = .data "45000/200000\n" ∧
    usageRead 45000 200000 plen 5 = .data "/200000\n" := by
  have hc : usageContent 45000 200000 = "45000/200000\n" := by decide
  constructor
  · simp only [usageRead, hc]
    rw [if_neg (by decide)]
    congr 1
    rw [show ("45000/200000\n").drop 0 = "45000/200000\n" from by decide]
    rw [String.take_eq]
    rw [List.take_of_length_le
      (by simpa using (by decide : ("45000/200000\n").length ≤ 13).trans h)]
  · simp only [usageRead, hc]
    rw [if_neg (by decide)]
    congr 1
    rw [show ("45000/200000\n").drop 5 = "/200000\n" from by decide]
    rw [String.take_eq]
    rw [List.take_of_length_le
      (by simpa using (by decide : ("/200000\n").length ≤ 13).trans h)]

/-- Witness for `usageRead_45000` at buffer size 100. -/
theorem usageRead_45000_witness :
    usageRead 45000 200000 100 0 = .data "45000/200000\n" ∧
    usageRead 45000 200000 100 5 = .data "/200000\n" :=
  usageRead_45000 100 (by decide)

/-! ## Wire codec (`internal/protocol`) — little-endian integers, strings,
Qids and the T-message payloads -/

/-- A byte buffer: a list of byte values (each `< 256` in well-formed
data). -/
abbrev ByteSeq := List Nat

/-- Little-endian encoding of `n` into `w` bytes
(`binary.LittleEndian.PutUint16/32/64`, uniformly over the width). -/
def putLE : Nat → Nat → ByteSeq
  | 0, _ => []
  | w + 1, n => n % 256 :: putLE w (n / 256)

/-- Little-endian decoding of `w` bytes
(`binary.LittleEndian.Uint16/32/64`).  Callers check the buffer length
first, exactly as the Go code does. -/
def getLE : Nat → ByteSeq → Nat
  | 0, _ => 0
  | w + 1, b => b.headD 0 + 256 * getLE w b.tail

theorem putLE_length (w n : Nat) : (putLE w n).length = w := by
  induction w generalizing n with
  | zero => rfl
  | succ w ih => simp [putLE, ih]

theorem getLE_putLE_append (w n : Nat) (r : ByteSeq) :
    getLE w (putLE w n ++ r) = n % 256 ^ w := by
  induction w generalizing n with
  | zero => simp [putLE, getLE, Nat.mod_one]
  | succ w ih =>
    simp only [putLE, getLE, List.cons_append, List.headD_cons, List.tail_cons]
    rw [ih, pow_succ', ← Nat.mod_mul]

theorem getLE_putLE (w n : Nat) (r : ByteSeq) (h : n < 256 ^ w) :
    getLE w (putLE w n ++ r) = n := by
  rw [getLE_putLE_append, Nat.mod_eq_of_lt h]

theorem drop_putLE (w n : Nat) (r : ByteSeq) : (putLE w n ++ r).drop w = r := by
  have h := List.drop_left (putLE w n) r
  rwa [putLE_length] at h

theorem drop_append_length {a b : ByteSeq} {n : Nat} (h : a.length = n) :
    (a ++ b).drop n = b := by
  subst h
  exact List.drop_left a b

/-- `EncodeString`: `u16` length followed by the bytes. -/
def encodeString (s : ByteSeq) : ByteSeq :=
  putLE 2 s.length ++ s

/-- `DecodeString`: returns the string and the number of bytes consumed;
on a buffer too short for the length field or for the announced bytes it
returns `([], 0)` — the empty string, not an error.  The bound `2+size` is
computed in Go's `uint16` arithmetic, so it wraps: for announced sizes
65534 and 65535 the length check passes spuriously and the slice
`buf[2 : 2+size]` has its low bound above its high bound, which panics at
run time — modelled here as `none` (there is no `recover`, so the panic
aborts the connection handler). -/
def decodeString (buf : ByteSeq) : Option (ByteSeq × Nat) :=
  if buf.length < 2 then some ([], 0)
  else
    let size := getLE 2 buf
    let bound := (2 + size) % 65536
    if buf.length < bound then some ([], 0)
    else if bound < 2 then none
    else some ((buf.drop 2).take (bound - 2), bound)

theorem encodeString_length (s : ByteSeq) :
    (encodeString s).length = 2 + s.length := by
  simp [encodeString, putLE_length]

theorem decodeString_encodeString (s r : ByteSeq) (h : s.length < 65534) :
    decodeString (encodeString s ++ r) = some (s, 2 + s.length) := by
  have hsize : getLE 2 (encodeString s ++ r) = s.length := by
    rw [encodeString, List.append_assoc]
    exact getLE_putLE 2 s.length (s ++ r) (by norm_num; omega)
  have hlen : (encodeString s ++ r).length = 2 + s.length + r.length := by
    simp [encodeString_length]
  have hbound : (2 + s.length) % 65536 = 2 + s.length :=
    Nat.mod_eq_of_lt (by omega)
  rw [decodeString]
  rw [if_neg (by omega)]
  simp only [hsize, hbound]
  rw [if_neg (by omega), if_neg (by omega)]
  have hdrop : (encodeString s ++ r).drop 2 = s ++ r := by
    rw [encodeString, List.append_assoc]
    exact drop_putLE 2 s.length (s ++ r)
  rw [hdrop]
  rw [show 2 + s.length - 2 = s.length from by omega, List.take_left]

/-- The panic region of `DecodeString`: an announced size of 65534 or
65535 makes `2+size` wrap below 2 and the slice panic, even when every
announced byte is present. -/
theorem decodeString_wrap_panic (buf : ByteSeq) (h2 : 2 ≤ buf.length)
    (hw : (2 + getLE 2 buf) % 65536 < 2) : decodeString buf = none := by
  rw [decodeString, if_neg (by omega)]
  simp only
  rw [if_neg (by omega), if_pos hw]

/-- `Qid`: node identity triple (`type:u8`, `version:u32`, `path:u64`). -/
structure Qid where
  type : Nat
  version : Nat
  path : Nat
deriving DecidableEq, Repr

/-- `Qid.Encode`: 13 bytes. -/
def qidEncode (q : Qid) : ByteSeq :=
  q.type :: (putLE 4 q.version ++ putLE 8 q.path)

/-- `DecodeQid`: returns the Qid and 13, or the zero Qid and 0 on a short
buffer. -/
def qidDecode (buf : ByteSeq) : Qid × Nat :=
  if buf.length < 13 then ({ type := 0, version := 0, path := 0 }, 0)
  else ({ type := buf.headD 0,
          version := getLE 4 (buf.drop 1),
          path := getLE 8 (buf.drop 5) }, 13)

/-- Well-formedness of a Qid: each field fits its wire width. -/
def wfQid (q : Qid) : Prop :=
  q.type < 256 ∧ q.version < 2 ^ 32 ∧ q.path < 2 ^ 64

/-- The T-messages for which the source implements both an encoder and a
decoder (`TversionMsg` … `TflushMsg` in `internal/protocol/message.go`).
String fields are byte strings, as in Go. -/
inductive TMsg where
  | version (msize : Nat) (ver : ByteSeq)
  | attach (fid afid : Nat) (uname aname : ByteSeq)
  | walk (fid newfid : Nat) (names : List ByteSeq)
  | topen (fid : Nat) (mode : Nat)
  | tread (fid : Nat) (offset : Nat) (count : Nat)
  | twrite (fid : Nat) (offset : Nat) (data : ByteSeq)
  | clunk (fid : Nat)
  | stat (fid : Nat)
  | flush (oldtag : Nat)
deriving DecidableEq, Repr

/-- The wire type byte of each T-message (`Tversion = 100` … constants). -/
def tMsgType : TMsg → Nat
  | .version _ _ => 100
  | .attach _ _ _ _ => 104
  | .walk _ _ _ => 110
  | .topen _ _ => 112
  | .tread _ _ _ => 116
  | .twrite _ _ _ => 118
  | .clunk _ => 120
  | .stat _ => 124
  | .flush _ => 108

/-- The `Encode` methods of the T-messages: the payload bytes (the frame
header `size|type|tag` is added by `WriteMessage`). -/
def encodeTPayload : TMsg → ByteSeq
  | .version msize ver => putLE 4 msize ++ encodeString ver
  | .attach fid afid uname aname =>
      putLE 4 fid ++ putLE 4 afid ++ encodeString uname ++ encodeString aname
  | .walk fid newfid names =>
      putLE 4 fid ++ putLE 4 newfid ++ putLE 2 names.length ++
        (names.map encodeString).flatten
  | .topen fid mode => putLE 4 fid ++ [mode]
  | .tread fid offset count => putLE 4 fid ++ putLE 8 offset ++ putLE 4 count
  | .twrite fid offset data =>
      putLE 4 fid ++ putLE 8 offset ++ putLE 4 data.length ++ data
  | .clunk fid => putLE 4 fid
  | .stat fid => putLE 4 fid
  | .flush oldtag => putLE 2 oldtag

/-- `DecodeTversion`.  A panic (`none`) inside `DecodeString`
propagates. -/
def decodeTversion (buf : ByteSeq) : Option (Except String TMsg) :=
  if buf.length < 6 then some (.error "Tversion too short")
  else
    match decodeString (buf.drop 4) with
    | none => none
    | some v => some (.ok (.version (getLE 4 buf) v.1))

/-- `DecodeTattach`. -/
def decodeTattach (buf : ByteSeq) : Option (Except String TMsg) :=
  if buf.length < 12 then some (.error "Tattach too short")
  else
    match decodeString (buf.drop 8) with
    | none => none
    | some u =>
        match decodeString (buf.drop (8 + u.2)) with
        | none => none
        | some a =>
            some (.ok (.attach (getLE 4 buf) (getLE 4 (buf.drop 4)) u.1 a.1))

/-- The name-decoding loop of `DecodeTwalk`: decode `k` strings in
sequence, advancing by the consumed byte count each time; a panic in any
`DecodeString` call propagates. -/
def decodeNames : Nat → ByteSeq → Option (List ByteSeq × Nat)
  | 0, _ => some ([], 0)
  | k + 1, buf =>
      match decodeString buf with
      | none => none
      | some s =>
          match decodeNames k (buf.drop s.2) with
          | none => none
          | some rest => some (s.1 :: rest.1, s.2 + rest.2)

/-- `DecodeTwalk`. -/
def decodeTwalk (buf : ByteSeq) : Option (Except String TMsg) :=
  if buf.length < 10 then some (.error "Twalk too short")
  else
    match decodeNames (getLE 2 (buf.drop 8)) (buf.drop 10) with
    | none => none
    | some ns =>
        some (.ok (.walk (getLE 4 buf) (getLE 4 (buf.drop 4)) ns.1))

/-- `DecodeTopen`. -/
def decodeTopen (buf : ByteSeq) : Except String TMsg :=
  if buf.length < 5 then .error "Topen too short"
  else .ok (.topen (getLE 4 buf) ((buf.drop 4).headD 0))

/-- `DecodeTread`. -/
def decodeTread (buf : ByteSeq) : Except String TMsg :=
  if buf.length < 16 then .error "Tread too short"
  else .ok (.tread (getLE 4 buf) (getLE 8 (buf.drop 4)) (getLE 4 (buf.drop 12)))

/-- `DecodeTwrite`: the announced `count` must fit in the remaining
payload, otherwise decoding fails with an explicit error.  The bound
`16+count` is computed in Go's `uint32` arithmetic, so it wraps: for
counts at least `2^32 - 16` the length check passes spuriously and the
slice `buf[16 : 16+count]` panics (`none`). -/
def decodeTwrite (buf : ByteSeq) : Option (Except String TMsg) :=
  if buf.length < 16 then some (.error "Twrite too short")
  else
    let count := getLE 4 (buf.drop 12)
    let bound := (16 + count) % 2 ^ 32
    if buf.length < bound then some (.error "Twrite data truncated")
    else if bound < 16 then none
    else some (.ok (.twrite (getLE 4 buf) (getLE 8 (buf.drop 4))
      ((buf.drop 16).take (bound - 16))))

/-- `DecodeTclunk`. -/
def decodeTclunk (buf : ByteSeq) : Except String TMsg :=
  if buf.length < 4 then .error "Tclunk too short"
  else .ok (.clunk (getLE 4 buf))

/-- `DecodeTstat`. -/
def decodeTstat (buf : ByteSeq) : Except String TMsg :=
  if buf.length < 4 then .error "Tstat too short"
  else .ok (.stat (getLE 4 buf))

/-- `DecodeTflush`. -/
def decodeTflush (buf : ByteSeq) : Except String TMsg :=
  if buf.length < 2 then .error "Tflush too short"
  else .ok (.flush (getLE 2 buf))

/-- The decoder for a payload of a given wire type, aggregating the
per-type `DecodeT*` functions exactly as `handleMessage` dispatches.
`none` models a run-time panic inside the decoder (possible only for the
string-consuming and `Twrite` decoders). -/
def decodeTMsg (t : Nat) (buf : ByteSeq) : Option (Except String TMsg) :=
  if t = 100 then decodeTversion buf
  else if t = 104 then decodeTattach buf
  else if t = 110 then decodeTwalk buf
  else if t = 112 then some (decodeTopen buf)
  else if t = 116 then some (decodeTread buf)
  else if t = 118 then decodeTwrite buf
  else if t = 120 then some (decodeTclunk buf)
  else if t = 124 then some (decodeTstat buf)
  else if t = 108 then some (decodeTflush buf)
  else some (.error "unknown message type")

theorem decodeTMsg_version (b : ByteSeq) : decodeTMsg 100 b = decodeTversion b := rfl

theorem decodeTMsg_attach (b : ByteSeq) : decodeTMsg 104 b = decodeTattach b := rfl

theorem decodeTMsg_walk (b : ByteSeq) : decodeTMsg 110 b = decodeTwalk b := rfl

theorem decodeTMsg_topen (b : ByteSeq) : decodeTMsg 112 b = some (decodeTopen b) := rfl

theorem decodeTMsg_tread (b : ByteSeq) : decodeTMsg 116 b = some (decodeTread b) := rfl

theorem decodeTMsg_twrite (b : ByteSeq) : decodeTMsg 118 b = decodeTwrite b := rfl

theorem decodeTMsg_clunk (b : ByteSeq) : decodeTMsg 120 b = some (decodeTclunk b) := rfl

theorem decodeTMsg_stat (b : ByteSeq) : decodeTMsg 124 b = some (decodeTstat b) := rfl

theorem decodeTMsg_flush (b : ByteSeq) : decodeTMsg 108 b = some (decodeTflush b) := rfl

/-- Well-formed wire string: its entries are bytes and its length stays
below 65534, the region where the decoder's `uint16` bound `2+size` does
not wrap (at lengths 65534/65535 `DecodeString` panics on its slice, so
such strings cannot round-trip; any string that fits the 8192-byte frame
bound is far below this limit). -/
def wfStr (s : ByteSeq) : Prop :=
  s.length < 65534 ∧ ∀ b ∈ s, b < 256

instance (s : ByteSeq) : Decidable (wfStr s) := by
  unfold wfStr
  infer_instance

instance (q : Qid) : Decidable (wfQid q) := by
  unfold wfQid
  infer_instance

/-- Well-formed T-message: every numeric field fits its wire width, every
string is a well-formed wire string, a walk carries at most `u16`-many
names, and a write payload stays below `2^32 - 16`, the region where the
decoder's `uint32` bound `16+count` does not wrap (at larger counts
`DecodeTwrite` panics on its slice). -/
def wfTMsg : TMsg → Prop
  | .version msize ver => msize < 2 ^ 32 ∧ wfStr ver
  | .attach fid afid uname aname =>
      fid < 2 ^ 32 ∧ afid < 2 ^ 32 ∧ wfStr uname ∧ wfStr aname
  | .walk fid newfid names =>
      fid < 2 ^ 32 ∧ newfid < 2 ^ 32 ∧ names.length < 65536 ∧
        ∀ s ∈ names, wfStr s
  | .topen fid mode => fid < 2 ^ 32 ∧ mode < 256
  | .tread fid offset count => fid < 2 ^ 32 ∧ offset < 2 ^ 64 ∧ count < 2 ^ 32
  | .twrite fid offset data =>
      fid < 2 ^ 32 ∧ offset < 2 ^ 64 ∧ data.length < 2 ^ 32 - 16 ∧
        ∀ b ∈ data, b < 256
  | .clunk fid => fid < 2 ^ 32
  | .stat fid => fid < 2 ^ 32
  | .flush oldtag => oldtag < 65536

instance (m : TMsg) : Decidable (wfTMsg m) := by
  cases m <;> (unfold wfTMsg; infer_instance)

theorem decodeNames_encode (names : List ByteSeq) (r : ByteSeq)
    (h : ∀ s ∈ names, s.length < 65534) :
    decodeNames names.length ((names.map encodeString).flatten ++ r) =
      some (names, ((names.map encodeString).flatten).length) := by
  induction names generalizing r with
  | nil => simp [decodeNames]
  | cons s ss ih =>
    have hs : s.length < 65534 := h s (by simp)
    have hjoin : ((s :: ss).map encodeString).flatten ++ r =
        encodeString s ++ (((ss.map encodeString).flatten) ++ r) := by
      simp [List.append_assoc]
    rw [List.length_cons, decodeNames, hjoin]
    rw [decodeString_encodeString s _ hs]
    simp only
    rw [drop_append_length (encodeString_length s)]
    rw [ih _ (fun t ht => h t (by simp [ht]))]
    simp [encodeString_length]

theorem getLE2_put (n : Nat) (r : ByteSeq) (h : n < 65536) :
    getLE 2 (putLE 2 n ++ r) = n :=
  getLE_putLE 2 n r (lt_of_lt_of_le h (by norm_num))

theorem getLE4_put (n : Nat) (r : ByteSeq) (h : n < 2 ^ 32) :
    getLE 4 (putLE 4 n ++ r) = n :=
  getLE_putLE 4 n r (lt_of_lt_of_le h (by norm_num))

theorem getLE8_put (n : Nat) (r : ByteSeq) (h : n < 2 ^ 64) :
    getLE 8 (putLE 8 n ++ r) = n :=
  getLE_putLE 8 n r (lt_of_lt_of_le h (by norm_num))

theorem decodeString_encodeString_nil (s : ByteSeq) (h : s.length < 65534) :
    decodeString (encodeString s) = some (s, 2 + s.length) := by
  have := decodeString_encodeString s [] h
  simpa using this

/-- C6 amended.  For every well-formed message of an implemented type —
numeric fields within their wire widths, strings shorter than 65534 bytes
and write payloads shorter than `2^32 - 16` bytes, the region where the
decoder's wrapping bounds arithmetic is exact (any message that fits the
8192-byte frame bound qualifies) — decoding the byte encoding yields the
message back, field for field: all nine T-message codec pairs round-trip,
and so does the Qid codec used inside Stat marshalling (no decodable
message type carries a Qid field directly). -/
theorem decode_encode_roundTrip :
    (∀ m : TMsg, wfTMsg m →
      decodeTMsg (tMsgType m) (encodeTPayload m) = some (.ok m)) ∧
    (∀ q : Qid, wfQid q → qidDecode (qidEncode q) = (q, 13)) := by
  constructor
  · intro m hm
    cases m with
    | version msize ver =>
      obtain ⟨h1, h2, _⟩ := hm
      simp only [tMsgType]
      rw [decodeTMsg_version]
      have hlen : (encodeTPayload (.version msize ver)).length = 6 + ver.length := by
        simp [encodeTPayload, putLE_length, encodeString_length]
        omega
      rw [decodeTversion, if_neg (by rw [hlen]; omega)]
      rw [encodeTPayload, getLE4_put msize _ h1, drop_putLE,
        decodeString_encodeString_nil ver h2]
    | attach fid afid uname aname =>
      obtain ⟨h1, h2, ⟨h3, _⟩, h4, _⟩ := hm
      simp only [tMsgType]
      rw [decodeTMsg_attach]
      rw [encodeTPayload]
      simp only [List.append_assoc]
      have d4 : (putLE 4 fid ++ (putLE 4 afid ++
          (encodeString uname ++ encodeString aname))).drop 4 =
          putLE 4 afid ++ (encodeString uname ++ encodeString aname) :=
        drop_putLE ..
      have d8 : (putLE 4 fid ++ (putLE 4 afid ++
          (encodeString uname ++ encodeString aname))).drop 8 =
          encodeString uname ++ encodeString aname := by
        rw [show (8 : Nat) = 4 + 4 from rfl, ← List.drop_drop, d4, drop_putLE]
      have hlen : (putLE 4 fid ++ (putLE 4 afid ++
          (encodeString uname ++ encodeString aname))).length =
          12 + uname.length + aname.length := by
        simp [putLE_length, encodeString_length]
        omega
      have d10 : (putLE 4 fid ++ (putLE 4 afid ++
          (encodeString uname ++ encodeString aname))).drop (8 + (2 + uname.length)) =
          encodeString aname := by
        rw [← List.drop_drop, d8, drop_append_length (encodeString_length uname)]
      rw [decodeTattach, if_neg (by rw [hlen]; omega)]
      simp only [d8, decodeString_encodeString uname (encodeString aname) h3,
        d10, decodeString_encodeString_nil aname h4,
        getLE4_put fid (putLE 4 afid ++ (encodeString uname ++ encodeString aname)) h1,
        d4, getLE4_put afid (encodeString uname ++ encodeString aname) h2]
    | walk fid newfid names =>
      obtain ⟨h1, h2, h3, h4⟩ := hm
      simp only [tMsgType]
      rw [decodeTMsg_walk]
      rw [encodeTPayload]
      simp only [List.append_assoc]
      have d4 : (putLE 4 fid ++ (putLE 4 newfid ++ (putLE 2 names.length ++
          (names.map encodeString).flatten))).drop 4 =
          putLE 4 newfid ++ (putLE 2 names.length ++
            (names.map encodeString).flatten) := drop_putLE ..
      have d8 : (putLE 4 fid ++ (putLE 4 newfid ++ (putLE 2 names.length ++
          (names.map encodeString).flatten))).drop 8 =
          putLE 2 names.length ++ (names.map encodeString).flatten := by
        rw [show (8 : Nat) = 4 + 4 from rfl, ← List.drop_drop, d4, drop_putLE]
      have d10 : (putLE 4 fid ++ (putLE 4 newfid ++ (putLE 2 names.length ++
          (names.map encodeString).flatten))).drop 10 =
          (names.map encodeString).flatten := by
        rw [show (10 : Nat) = 8 + 2 from rfl, ← List.drop_drop, d8, drop_putLE]
      have hlen : 10 ≤ (putLE 4 fid ++ (putLE 4 newfid ++ (putLE 2 names.length ++
          (names.map encodeString).flatten))).length := by
        simp [putLE_length]
        omega
      have hnames : decodeNames names.length ((names.map encodeString).flatten) =
          some (names, ((names.map encodeString).flatten).length) := by
        have := decodeNames_encode names [] (fun s hs => (h4 s hs).1)
        rwa [List.append_nil] at this
      rw [decodeTwalk, if_neg (by omega)]
      simp only [d8,
        getLE2_put names.length ((names.map encodeString).flatten) h3, d10,
        hnames,
        getLE4_put fid (putLE 4 newfid ++ (putLE 2 names.length ++
          (names.map encodeString).flatten)) h1,
        d4,
        getLE4_put newfid (putLE 2 names.length ++
          (names.map encodeString).flatten) h2]
    | topen fid mode =>
      obtain ⟨h1, _⟩ := hm
      simp only [tMsgType]
      rw [decodeTMsg_topen]
      have hlen : (encodeTPayload (.topen fid mode)).length = 5 := by
        simp [encodeTPayload, putLE_length]
      rw [decodeTopen, if_neg (by rw [hlen]; omega)]
      rw [encodeTPayload, getLE4_put fid _ h1, drop_putLE]
      rfl
    | tread fid offset count =>
      obtain ⟨h1, h2, h3⟩ := hm
      simp only [tMsgType]
      rw [decodeTMsg_tread]
      rw [encodeTPayload]
      simp only [List.append_assoc]
      have d4 : (putLE 4 fid ++ (putLE 8 offset ++ putLE 4 count)).drop 4 =
          putLE 8 offset ++ putLE 4 count := drop_putLE ..
      have d12 : (putLE 4 fid ++ (putLE 8 offset ++ putLE 4 count)).drop 12 =
          putLE 4 count := by
        rw [show (12 : Nat) = 4 + 8 from rfl, ← List.drop_drop, d4, drop_putLE]
      have hlen : (putLE 4 fid ++ (putLE 8 offset ++ putLE 4 count)).length = 16 := by
        simp [putLE_length]
      rw [decodeTread, if_neg (by omega)]
      rw [getLE4_put fid _ h1, d4, getLE8_put offset _ h2, d12]
      have := getLE4_put count [] h3
      rw [List.append_nil] at this
      rw [this]
    | twrite fid offset data =>
      obtain ⟨h1, h2, h3, _⟩ := hm
      simp only [tMsgType]
      rw [decodeTMsg_twrite]
      rw [encodeTPayload]
      simp only [List.append_assoc]
      have d4 : (putLE 4 fid ++ (putLE 8 offset ++ (putLE 4 data.length ++
          data))).drop 4 = putLE 8 offset ++ (putLE 4 data.length ++ data) :=
        drop_putLE ..
      have d12 : (putLE 4 fid ++ (putLE 8 offset ++ (putLE 4 data.length ++
          data))).drop 12 = putLE 4 data.length ++ data := by
        rw [show (12 : Nat) = 4 + 8 from rfl, ← List.drop_drop, d4, drop_putLE]
      have d16 : (putLE 4 fid ++ (putLE 8 offset ++ (putLE 4 data.length ++
          data))).drop 16 = data := by
        rw [show (16 : Nat) = 12 + 4 from rfl, ← List.drop_drop, d12, drop_putLE]
      have hlen : (putLE 4 fid ++ (putLE 8 offset ++ (putLE 4 data.length ++
          data))).length = 16 + data.length := by
        simp [putLE_length]
        omega
      have hcount : getLE 4 ((putLE 4 fid ++ (putLE 8 offset ++
          (putLE 4 data.length ++ data))).drop 12) = data.length := by
        rw [d12]
        exact getLE4_put data.length data (by omega)
      rw [decodeTwrite, if_neg (by omega)]
      simp only [hcount, Nat.mod_eq_of_lt (show 16 + data.length < 2 ^ 32 by omega)]
      rw [if_neg (by omega), if_neg (by omega)]
      simp only [getLE4_put fid (putLE 8 offset ++ (putLE 4 data.length ++ data)) h1,
        d4, getLE8_put offset (putLE 4 data.length ++ data) h2, d16]
      rw [show 16 + data.length - 16 = data.length from by omega, List.take_length]
    | clunk fid =>
      simp only [tMsgType]
      rw [decodeTMsg_clunk]
      have hlen : (encodeTPayload (.clunk fid)).length = 4 := by
        simp [encodeTPayload, putLE_length]
      rw [decodeTclunk, if_neg (by rw [hlen]; omega)]
      rw [encodeTPayload]
      have := getLE4_put fid [] hm
      rw [List.append_nil] at this
      rw [this]
    | stat fid =>
      simp only [tMsgType]
      rw [decodeTMsg_stat]
      have hlen : (encodeTPayload (.stat fid)).length = 4 := by
        simp [encodeTPayload, putLE_length]
      rw [decodeTstat, if_neg (by rw [hlen]; omega)]
      rw [encodeTPayload]
      have := getLE4_put fid [] hm
      rw [List.append_nil] at this
      rw [this]
    | flush oldtag =>
      simp only [tMsgType]
      rw [decodeTMsg_flush]
      have hlen : (encodeTPayload (.flush oldtag)).length = 2 := by
        simp [encodeTPayload, putLE_length]
      rw [decodeTflush, if_neg (by rw [hlen]; omega)]
      rw [encodeTPayload]
      have := getLE2_put oldtag [] hm
      rw [List.append_nil] at this
      rw [this]
  · intro q hq
    obtain ⟨h1, h2, h3⟩ := hq
    have hlen : (qidEncode q).length = 13 := by
      simp [qidEncode, putLE_length]
    rw [qidDecode, if_neg (by rw [hlen]; omega)]
    have d1 : (qidEncode q).drop 1 = putLE 4 q.version ++ putLE 8 q.path := rfl
    have d5 : (qidEncode q).drop 5 = putLE 8 q.path := by
      rw [show (5 : Nat) = 1 + 4 from rfl, ← List.drop_drop, d1, drop_putLE]
    have hput := getLE8_put q.path [] h3
    rw [List.append_nil] at hput
    rw [d1, d5, getLE4_put q.version _ h2, hput]
    rfl

/-- Witness for `decode_encode_roundTrip`: a concrete `Twalk` message and a
concrete Qid round-trip through the codec. -/
theorem decode_encode_roundTrip_witness :
    decodeTMsg (tMsgType (.walk 1 2 [[97], [98, 99]]))
        (encodeTPayload (.walk 1 2 [[97], [98, 99]])) =
      some (.ok (.walk 1 2 [[97], [98, 99]])) ∧
    qidDecode (qidEncode { type := 128, version := 7, path := 42 }) =
      ({ type := 128, version := 7, path := 42 }, 13) := by
  constructor
  · exact decode_encode_roundTrip.1 (.walk 1 2 [[97], [98, 99]]) (by decide)
  · exact decode_encode_roundTrip.2 { type := 128, version := 7, path := 42 }
      (by decide)

/-- C6 counterexample: a `Tversion` message whose version string is 65534
zero bytes — its length fits the `u16` length field, so the message is
well-formed in the widths-only sense — does not round-trip: decoding its
own encoding panics (`none`), because the `uint16` bound `2+65534` wraps
to 0, the length check passes spuriously, and the slice `buf[2:0]` is out
of range. -/
theorem decode_encode_panic_counterexample :
    (List.replicate 65534 (0 : Nat)).length < 65536 ∧
    (∀ b ∈ List.replicate 65534 (0 : Nat), b < 256) ∧
    decodeTMsg (tMsgType (.version 0 (List.replicate 65534 (0 : Nat))))
      (encodeTPayload (.version 0 (List.replicate 65534 (0 : Nat)))) = none := by
  refine ⟨?_, ?_, ?_⟩
  · rw [List.length_replicate]
    norm_num
  · intro b hb
    rw [List.eq_of_mem_replicate hb]
    omega
  · have hslen : (List.replicate 65534 (0 : Nat)).length = 65534 :=
      List.length_replicate ..
    have hlen : (encodeTPayload
        (.version 0 (List.replicate 65534 (0 : Nat)))).length = 65540 := by
      rw [encodeTPayload, List.length_append, putLE_length,
        encodeString_length, hslen]
    have hpanic : decodeString (encodeString (List.replicate 65534 (0 : Nat))) =
        none := by
      apply decodeString_wrap_panic
      · rw [encodeString_length, hslen]
        omega
      · have hg : getLE 2 (encodeString (List.replicate 65534 (0 : Nat))) =
            65534 := by
          rw [encodeString, hslen]
          exact getLE2_put 65534 _ (by norm_num)
        rw [hg]
        norm_num
    simp only [tMsgType]
    rw [decodeTMsg_version, decodeTversion, if_neg (by rw [hlen]; omega)]
    rw [encodeTPayload, drop_putLE, hpanic]

/-- `Decoder.ReadMessage`: read the `u32` size, reject sizes below 7 or
above `MaxMessageSize = 8192` with explicit errors, fail when the stream
holds fewer bytes than announced, and otherwise return the type byte, the
tag and the payload. -/
def readMessage (input : ByteSeq) : Except String (Nat × Nat × ByteSeq) :=
  if input.length < 4 then .error "reading size"
  else
    let size := getLE 4 input
    if size < 7 then .error ("message too small: " ++ toString size)
    else if size > 8192 then .error ("message too large: " ++ toString size)
    else if input.length < size then .error "reading message"
    else .ok ((input.drop 4).headD 0, getLE 2 (input.drop 5),
              (input.drop 7).take (size - 7))

/-- C8 counterexample: a truncated string (`u16` length 5, no bytes) is
decoded as the empty string with zero bytes consumed — no error — and
`DecodeTversion` on a frame whose version string is truncated succeeds
silently with an empty version, instead of failing with an explicit
error. -/
theorem decodeString_truncated_counterexample :
    decodeString [5, 0] = some ([], 0) ∧
    decodeTversion (putLE 4 8192 ++ [5, 0]) = some (.ok (.version 8192 [])) := by
  constructor
  · rfl
  · rfl

/-- C8 amended: the frame reader rejects undersize and oversize frames and
truncated frame bodies with explicit errors.  A `Twrite` whose declared
count exceeds the remaining payload fails with the explicit truncation
error whenever the `uint32` bound `16+count` does not wrap, and a
truncated string is silently decoded as the empty string consuming zero
bytes (message decoders such as `DecodeTversion` accept it) whenever the
`uint16` bound `2+size` does not wrap; but at announced string sizes
65534/65535 and `Twrite` counts of at least `2^32 - 16` the wrapped bound
passes spuriously and the decoder panics on its slice (`none`) instead of
reporting anything. -/
theorem frame_bounds_spec :
    (∀ n rest, n < 7 →
      readMessage (putLE 4 n ++ rest) = .error ("message too small: " ++ toString n)) ∧
    (∀ n rest, n < 2 ^ 32 → 8192 < n →
      readMessage (putLE 4 n ++ rest) = .error ("message too large: " ++ toString n)) ∧
    (∀ n rest, 7 ≤ n → n ≤ 8192 → (putLE 4 n ++ rest).length < n →
      readMessage (putLE 4 n ++ rest) = .error "reading message") ∧
    (∀ buf, 16 ≤ buf.length → buf.length < (16 + getLE 4 (buf.drop 12)) % 2 ^ 32 →
      decodeTwrite buf = some (.error "Twrite data truncated")) ∧
    (∀ buf, buf.length < (2 + getLE 2 buf) % 65536 →
      decodeString buf = some ([], 0)) ∧
    (∀ msize, msize < 2 ^ 32 →
      decodeTversion (putLE 4 msize ++ [5, 0]) = some (.ok (.version msize []))) ∧
    (∀ buf, 2 ≤ buf.length → (2 + getLE 2 buf) % 65536 < 2 →
      decodeString buf = none) ∧
    (∀ buf, 16 ≤ buf.length → (16 + getLE 4 (buf.drop 12)) % 2 ^ 32 < 16 →
      decodeTwrite buf = none) := by
  refine ⟨?_, ?_, ?_, ?_, ?_, ?_, ?_, ?_⟩
  · intro n rest h
    rw [readMessage, if_neg (by simp [putLE_length])]
    rw [getLE4_put n rest (by omega)]
    rw [if_pos h]
  · intro n rest h1 h2
    rw [readMessage, if_neg (by simp [putLE_length])]
    rw [getLE4_put n rest h1]
    rw [if_neg (by omega), if_pos h2]
  · intro n rest h1 h2 h3
    rw [readMessage, if_neg (by simp [putLE_length])]
    rw [getLE4_put n rest (by omega)]
    rw [if_neg (by omega), if_neg (by omega), if_pos h3]
  · intro buf h1 h2
    rw [decodeTwrite, if_neg (by omega)]
    simp only
    rw [if_pos h2]
  · intro buf h
    rw [decodeString]
    by_cases h2 : buf.length < 2
    · rw [if_pos h2]
    · rw [if_neg h2]
      simp only
      rw [if_pos h]
  · intro msize h
    have hlen : (putLE 4 msize ++ [5, 0]).length = 6 := by
      simp [putLE_length]
    rw [decodeTversion, if_neg (by omega)]
    rw [getLE4_put msize _ h, drop_putLE]
    rfl
  · intro buf h1 h2
    exact decodeString_wrap_panic buf h1 h2
  · intro buf h1 h2
    rw [decodeTwrite, if_neg (by omega)]
    simp only
    rw [if_neg (by omega), if_pos h2]

/-- Witness for `frame_bounds_spec`: each branch at a concrete input
(including the two panic branches: announced string size 65534 and
announced write count `2^32 - 16`). -/
theorem frame_bounds_spec_witness :
    readMessage (putLE 4 5 ++ [1, 2]) = .error ("message too small: " ++ toString 5) ∧
    readMessage (putLE 4 9000 ++ [1, 2]) =
      .error ("message too large: " ++ toString 9000) ∧
    readMessage (putLE 4 8 ++ [1, 2]) = .error "reading message" ∧
    decodeTwrite (putLE 4 1 ++ (putLE 8 0 ++ (putLE 4 3 ++ [65]))) =
      some (.error "Twrite data truncated") ∧
    decodeString [9, 0, 65] = some ([], 0) ∧
    decodeTversion (putLE 4 8192 ++ [5, 0]) = some (.ok (.version 8192 [])) ∧
    decodeString [254, 255] = none ∧
    decodeTwrite (putLE 4 1 ++ (putLE 8 0 ++ putLE 4 4294967280)) = none := by
  refine ⟨?_, ?_, ?_, ?_, ?_, ?_, ?_, ?_⟩
  · exact frame_bounds_spec.1 5 [1, 2] (by decide)
  · exact frame_bounds_spec.2.1 9000 [1, 2] (by norm_num) (by decide)
  · exact frame_bounds_spec.2.2.1 8 [1, 2] (by decide) (by decide) (by decide)
  · exact frame_bounds_spec.2.2.2.1 (putLE 4 1 ++ (putLE 8 0 ++ (putLE 4 3 ++ [65])))
      (by decide) (by decide)
  · exact frame_bounds_spec.2.2.2.2.1 [9, 0, 65] (by decide)
  · exact frame_bounds_spec.2.2.2.2.2.1 8192 (by norm_num)
  · exact frame_bounds_spec.2.2.2.2.2.2.1 [254, 255] (by decide) (by decide)
  · exact frame_bounds_spec.2.2.2.2.2.2.2
      (putLE 4 1 ++ (putLE 8 0 ++ putLE 4 4294967280)) (by decide) (by decide)

/-! ## Text helpers shared by the virtual files -/

/-- ASCII whitespace as trimmed by `strings.TrimSpace` (the Unicode space
classes beyond ASCII are irrelevant to the properties here). -/
def isSpaceChar (c : Char) : Bool :=
  c = ' ' || c = '\t' || c = '\n' || c = '\x0b' || c = '\x0c' || c = '\r'

/-- `strings.TrimSpace`. -/
def trimSpace (s : String) : String :=
  ⟨((s.data.dropWhile isSpaceChar).reverse.dropWhile isSpaceChar).reverse⟩

/-- UTF-8 encoding of one code point. -/
def utf8Char (n : Nat) : ByteSeq :=
  if n < 128 then [n]
  else if n < 2048 then [192 + n / 64, 128 + n % 64]
  else if n < 65536 then [224 + n / 4096, 128 + n / 64 % 64, 128 + n % 64]
  else [240 + n / 262144, 128 + n / 4096 % 64, 128 + n / 64 % 64, 128 + n % 64]

/-- The UTF-8 bytes of a string (Go strings are byte strings; reads and
writes of the text files move these bytes). -/
def strBytes (s : String) : ByteSeq :=
  (s.data.map (fun c => utf8Char c.toNat)).flatten

/-- Newline termination on read: `content != "" && !HasSuffix(content,
"\n")` appends a newline. -/
def addNL (content : String) : String :=
  if content ≠ "" ∧ content.data.getLast? ≠ some '\n' then content ++ "\n"
  else content

/-- One hexadecimal digit (lower case), as `encoding/json` renders control
characters. -/
def hexDigit (n : Nat) : Char :=
  if n < 10 then Char.ofNat (48 + n) else Char.ofNat (87 + n)

/-- `encoding/json` escaping of one character (HTML escaping enabled, the
default used by `json.MarshalIndent`). -/
def jsonEscapeChar (c : Char) : String :=
  if c = '"' then "\\\""
  else if c = '\\' then "\\\\"
  else if c = '\n' then "\\n"
  else if c = '\r' then "\\r"
  else if c = '\t' then "\\t"
  else if c = '<' then "\\u003c"
  else if c = '>' then "\\u003e"
  else if c = '&' then "\\u0026"
  else if c.toNat < 32 then
    "\\u00" ++ ⟨[hexDigit (c.toNat / 16), hexDigit (c.toNat % 16)]⟩
  else ⟨[c]⟩

/-- A JSON string literal. -/
def jsonStr (s : String) : String :=
  "\"" ++ String.join (s.data.map jsonEscapeChar) ++ "\""

/-- One `Message` as rendered inside `json.MarshalIndent(msgs, "", "  ")`. -/
def messageJSONIndent (m : Message) : String :=
  "  \x7b\n    \"role\": " ++ jsonStr m.role ++
    ",\n    \"content\": " ++ jsonStr m.content ++ "\n  \x7d"

/-- `MessagesJSON`: `json.MarshalIndent` of the message list. -/
def messagesJSON (msgs : List Message) : String :=
  match msgs with
  | [] => "[]"
  | _ => "[\n" ++ String.intercalate ",\n" (msgs.map messageJSONIndent) ++ "\n]"

/-! ## Node tree (`internal/protocol` part_008 and the fid-aware files of
`internal/llmfs`) -/

/-- The non-Qid metadata a node serves through `Stat()` (`BaseFile`
fields; `Type`/`Dev` are always zero). -/
structure StatMeta where
  name : String
  mode : Nat
  atime : Nat
  mtime : Nat
  length : Nat
  uid : String
  gid : String
  muid : String
deriving DecidableEq, Repr

/-- The file variants the claims range over: the three fid-aware session
files (`ask`, `new`, `context`: `AskFile.CloseFid` removes the fid's
session, the other two `CloseFid`s are no-ops) and plain non-fid-aware
files with fixed content (such as `_example`; the generated read-only
files interact only with the backend, never with the fid table or the
session table, so they behave identically for walk/clunk/version). -/
inductive FileKind where
  | ask
  | newf
  | ctx
  | static (content : ByteSeq)
deriving DecidableEq, Repr

/-- A node of the fixed tree: a file or a static directory with named
children in insertion order. -/
inductive Node where
  | file (q : Qid) (meta : StatMeta) (k : FileKind)
  | dir (q : Qid) (meta : StatMeta) (children : List (String × Node))

/-- The node's Qid (`Stat().Qid`). -/
def Node.qid : Node → Qid
  | .file q _ _ => q
  | .dir q _ _ => q

/-- The node's non-Qid stat fields (`Stat()` without the Qid). -/
def statMetaOf : Node → StatMeta
  | .file _ m _ => m
  | .dir _ m _ => m

/-- `StaticDir.Lookup` (map lookup by child name; `ErrNotFound` becomes
`none`). -/
def lookupChild : List (String × Node) → String → Option Node
  | [], _ => none
  | (n, c) :: rest, name => if n = name then some c else lookupChild rest name

/-- Whether the connection server routes per-fid calls
(`file.(FidAwareFile)` succeeds): exactly the `ask`, `new` and `context`
files implement `ReadFid`/`WriteFid`/`CloseFid`. -/
def Node.isFidAware : Node → Bool
  | .file _ _ .ask => true
  | .file _ _ .newf => true
  | .file _ _ .ctx => true
  | _ => false

/-- Whether the node is the `ask` file (whose `CloseFid` removes the
session). -/
def Node.isAskFile : Node → Bool
  | .file _ _ .ask => true
  | _ => false

/-- `Stat.Encode` (part_009): `u16` size of the remainder, then the fixed
fields, the Qid and the four strings. -/
def statEncode (q : Qid) (m : StatMeta) : ByteSeq :=
  let body := putLE 2 0 ++ putLE 4 0 ++ qidEncode q ++ putLE 4 m.mode ++
    putLE 4 m.atime ++ putLE 4 m.mtime ++ putLE 8 m.length ++
    encodeString (strBytes m.name) ++ encodeString (strBytes m.uid) ++
    encodeString (strBytes m.gid) ++ encodeString (strBytes m.muid)
  putLE 2 body.length ++ body

/-! ## Connection server (part_010): per-connection fid table, dispatch -/

/-- Per-connection server state: the root node, the fid table
(`clientState.fids`), the negotiated `msize`, and the session table shared
through the fid-aware files (`SessionManager.sessions`). -/
structure SrvState where
  root : Node
  fids : List (Nat × Node)
  msize : Nat
  sessions : SMState

/-- Server responses, carrying the fields the handlers fill in (`Rstat`
carries the full stat of the node). -/
inductive Resp where
  | rerror (msg : String)
  | rversion (msize : Nat) (ver : String)
  | rattach (q : Qid)
  | rwalk (qids : List Qid)
  | ropen (q : Qid) (iounit : Nat)
  | rread (data : ByteSeq)
  | rwrite (count : Nat)
  | rclunk
  | rstat (q : Qid) (meta : StatMeta)
  | rflush

/-- `handleVersion`: clamp the proposed msize down to
`MaxMessageSize = 8192`, store it, and answer with the accepted version
string — `"unknown"` unless the client proposed `"9P2000"` or `"Styx"`.
The fid table is not touched. -/
def handleVersion (st : SrvState) (msize : Nat) (version : String) :
    SrvState × Resp :=
  let msize' := if msize > 8192 then 8192 else msize
  let vresp := if version ≠ "9P2000" ∧ version ≠ "Styx" then "unknown" else version
  ({ st with msize := msize' }, .rversion msize' vresp)

/-- `handleAttach`: bind the fid to the root, failing if it is in use. -/
def handleAttach (st : SrvState) (fid : Nat) : SrvState × Resp :=
  match mapLookup st.fids fid with
  | some _ => (st, .rerror "fid already in use")
  | none =>
      ({ st with fids := mapInsert st.fids fid st.root }, .rattach st.root.qid)

/-- The walk loop of `handleWalk`: component by component, the current
node must be a directory (`ErrNotDir` aborts the request); a failing
lookup breaks out, returning the Qids accumulated so far together with the
node reached; a completed walk also returns the final node. -/
def walkSteps : Node → List String → Except String (List Qid × Node)
  | cur, [] => .ok ([], cur)
  | cur, name :: rest =>
      match cur with
      | .file _ _ _ => .error "not a directory"
      | .dir _ _ children =>
          match lookupChild children name with
          | none => .ok ([], cur)
          | some next =>
              match walkSteps next rest with
              | .error e => .error e
              | .ok (qs, fin) => .ok (next.qid :: qs, fin)

/-- `handleWalk`: requires `fid` bound and (unless `newfid = fid`)
`newfid` unused; runs the walk loop; binds `newfid` to the reached node
only when every component resolved (`len(qids) == len(names)`), which is
also the clone case for a zero-length walk. -/
def handleWalk (st : SrvState) (fid newfid : Nat) (names : List String) :
    SrvState × Resp :=
  match mapLookup st.fids fid with
  | none => (st, .rerror "bad fid")
  | some file =>
      if fid ≠ newfid ∧ (mapLookup st.fids newfid).isSome then
        (st, .rerror "fid already in use")
      else
        match walkSteps file names with
        | .error e => (st, .rerror e)
        | .ok (qids, cur) =>
            if qids.length = names.length then
              ({ st with fids := mapInsert st.fids newfid cur }, .rwalk qids)
            else (st, .rwalk qids)

/-- `handleOpen`: `Open(mode)` is `BaseFile.Open` for every node of the
tree and always succeeds; reply with the Qid and iounit 0. -/
def handleOpen (st : SrvState) (fid : Nat) (_mode : Nat) : SrvState × Resp :=
  match mapLookup st.fids fid with
  | none => (st, .rerror "bad fid")
  | some file => (st, .ropen file.qid 0)

/-- The `maxData` clamp of `handleRead`: `msize - 4 - 1 - 2 - 4` in
`uint32` arithmetic (wrapping, hence the explicit `% 2^32`). -/
def maxData (msize : Nat) : Nat :=
  (msize + 2 ^ 32 - 11) % 2 ^ 32

/-- The per-node read operation as dispatched by `handleRead`: fid-aware
files get `ReadFid` (which creates the fid's session on demand), plain
files `Read`.  Returns the possibly-grown session table and either an
error or the bytes read (`io.EOF` is the empty read). -/
def nodeRead (sessions : SMState) (file : Node) (fid offset count : Nat) :
    SMState × Except String ByteSeq :=
  match file with
  | .file _ _ .ask =>
      let g := getOrCreate sessions fid
      let content := strBytes (addNL g.1.lastResponse)
      if content.length ≤ offset then (g.2, .ok [])
      else (g.2, .ok ((content.drop offset).take count))
  | .file _ _ .newf => (sessions, .error "permission denied")
  | .file _ _ .ctx =>
      let g := getOrCreate sessions fid
      let content := strBytes (messagesJSON g.1.messages) ++ [10]
      if content.length ≤ offset then (g.2, .ok [])
      else (g.2, .ok ((content.drop offset).take count))
  | .file _ _ (.static content) =>
      if content.length ≤ offset then (sessions, .ok [])
      else (sessions, .ok ((content.drop offset).take count))
  | .dir _ _ children =>
      let blob := (children.map (fun c => statEncode c.2.qid (statMetaOf c.2))).flatten
      if blob.length ≤ offset then (sessions, .ok [])
      else (sessions, .ok ((blob.drop offset).take count))

/-- `handleRead`: clamp the count, dispatch to the node, turn `io.EOF`
into a zero-byte `Rread` and other errors into `Rerror`. -/
def handleRead (st : SrvState) (fid offset count : Nat) : SrvState × Resp :=
  match mapLookup st.fids fid with
  | none => (st, .rerror "bad fid")
  | some file =>
      let count' := if count > maxData st.msize then maxData st.msize else count
      let r := nodeRead st.sessions file fid offset count'
      match r.2 with
      | .error e => (st, .rerror e)
      | .ok data => ({ st with sessions := r.1 }, .rread data)

/-- The per-node write operation as dispatched by `handleWrite`
(fid-aware files get `WriteFid`).  `data` is the written text (the Go
code converts the byte payload with `string(p)`); the byte count echoed in
`Rwrite` is its UTF-8 length.  The backend-call outcome needed by the
`ask` file is passed in as `oracle`. -/
def nodeWrite (sessions : SMState) (file : Node) (fid : Nat) (data : String)
    (oracle : BackendResult) : SMState × Except String Nat :=
  match file with
  | .file _ _ .ask =>
      let prompt := trimSpace data
      if prompt = "" then (sessions, .ok (strBytes data).length)
      else
        let g := getOrCreate sessions fid
        let r := smAsk g.2 fid prompt oracle
        (r.1, .ok (strBytes data).length)
  | .file _ _ .newf =>
      (smReset sessions fid, .ok (strBytes data).length)
  | .file _ _ .ctx =>
      let msg := trimSpace data
      if msg = "" then (sessions, .ok (strBytes data).length)
      else
        let g := getOrCreate sessions fid
        (mapInsert g.2 fid
          { g.1 with messages :=
              { role := "system", content := msg } :: g.1.messages },
          .ok (strBytes data).length)
  | .file _ _ (.static _) => (sessions, .error "permission denied")
  | .dir _ _ _ => (sessions, .error "permission denied")

/-- `handleWrite`. -/
def handleWrite (st : SrvState) (fid : Nat) (data : String)
    (oracle : BackendResult) : SrvState × Resp :=
  match mapLookup st.fids fid with
  | none => (st, .rerror "bad fid")
  | some file =>
      let r := nodeWrite st.sessions file fid data oracle
      match r.2 with
      | .error e => (st, .rerror e)
      | .ok n => ({ st with sessions := r.1 }, .rwrite n)

/-- `handleClunk`: on a bound fid, run `CloseFid` for fid-aware files
(only `AskFile.CloseFid` removes the fid's session; the `new` and
`context` hooks are no-ops), run the no-op `Close`, drop the binding, and
always reply `Rclunk`. -/
def handleClunk (st : SrvState) (fid : Nat) : SrvState × Resp :=
  match mapLookup st.fids fid with
  | none => (st, .rerror "bad fid")
  | some file =>
      let sessions' :=
        if file.isAskFile then smRemove st.sessions fid else st.sessions
      ({ st with fids := mapErase st.fids fid, sessions := sessions' }, .rclunk)

/-- `handleStat`. -/
def handleStat (st : SrvState) (fid : Nat) : SrvState × Resp :=
  match mapLookup st.fids fid with
  | none => (st, .rerror "bad fid")
  | some file => (st, .rstat file.qid (statMetaOf file))

/-! ## Concrete instances of the fixed tree, for scenarios and witnesses -/

/-- Metadata constructor with owner/group `"llm"`, as `NewBaseFile`
produces. -/
def exMeta (name : String) (mode : Nat) : StatMeta :=
  { name := name, mode := mode, atime := 0, mtime := 0, length := 0,
    uid := "llm", gid := "llm", muid := "llm" }

def exAskQid : Qid := { type := 0, version := 0, path := 2 }

def exAskNode : Node := .file exAskQid (exMeta "ask" 438) .ask

def exCtxNode : Node := .file { type := 0, version := 0, path := 3 }
  (exMeta "context" 438) .ctx

def exRootQid : Qid := { type := 128, version := 0, path := 1 }

def exRoot : Node := .dir exRootQid (exMeta "llm" 2147483989)
  [("ask", exAskNode), ("context", exCtxNode)]

/-- A fresh connection against the example tree. -/
def exSrv : SrvState :=
  { root := exRoot, fids := [], msize := 8192, sessions := [] }

/-! ## C7 — Tversion and the fid table -/

/-- C7 counterexample: with fid 0 attached, processing `Tversion` leaves
the fid table as it was — it is not reset to empty. -/
theorem handleVersion_counterexample :
    (handleVersion (handleAttach exSrv 0).1 8192 "9P2000").1.fids =
      [(0, exRoot)] ∧
    ((0, exRoot) :: []) ≠ ([] : List (Nat × Node)) := by
  constructor
  · rfl
  · simp

/-- C7 amended: `Tversion` clamps the proposed msize down to the server
maximum 8192, replies with the accepted version string (`"unknown"` for
any version other than `"9P2000"` or `"Styx"`), and leaves the
connection's fid table untouched (it does not reset it). -/
theorem handleVersion_spec (st : SrvState) (msize : Nat) (version : String) :
    (handleVersion st msize version).1.fids = st.fids ∧
    (handleVersion st msize version).1.msize = min msize 8192 ∧
    (version = "9P2000" →
      (handleVersion st msize version).2 = .rversion (min msize 8192) "9P2000") ∧
    (version = "Styx" →
      (handleVersion st msize version).2 = .rversion (min msize 8192) "Styx") ∧
    (version ≠ "9P2000" → version ≠ "Styx" →
      (handleVersion st msize version).2 = .rversion (min msize 8192) "unknown") := by
  have hmin : (if msize > 8192 then 8192 else msize) = min msize 8192 := by
    rw [Nat.min_def]
    by_cases h : msize > 8192
    · rw [if_pos h, if_neg (by omega)]
    · rw [if_neg h, if_pos (by omega)]
  refine ⟨rfl, hmin, ?_, ?_, ?_⟩
  · intro hv
    subst hv
    simp [handleVersion, hmin]
  · intro hv
    subst hv
    simp [handleVersion, hmin]
  · intro h1 h2
    simp [handleVersion, hmin, h1, h2]

/-- Witness for `handleVersion_spec`: an oversize msize proposal with the
`"Styx"` version string. -/
theorem handleVersion_spec_witness :
    (handleVersion exSrv 100000 "Styx").1.fids = exSrv.fids ∧
    (handleVersion exSrv 100000 "Styx").2 = .rversion (min 100000 8192) "Styx" :=
  ⟨(handleVersion_spec exSrv 100000 "Styx").1,
   (handleVersion_spec exSrv 100000 "Styx").2.2.2.1 rfl⟩

/-! ## C2 — Tclunk, the fid table and the session table -/

/-- Attach fid 0, walk it to `context` as fid 1, write a note (creating
session 1), then clunk fid 1. -/
def c2St4 : SrvState :=
  (handleClunk
    (handleWrite
      (handleWalk (handleAttach exSrv 0).1 0 1 ["context"]).1
      1 "note" (.err "unused")).1
    1).1

/-- C2 counterexample: after clunking fid 1 — which was bound to the
`context` node — the fid binding is gone, but the session table still
holds the entry for fid 1 (`ContextFile.CloseFid` is a no-op; only
`AskFile.CloseFid` removes sessions), contradicting "the session table
holds no entry keyed by f, regardless of which node f was bound to". -/
theorem handleClunk_session_counterexample :
    mapLookup c2St4.fids 1 = none ∧
    mapLookup c2St4.sessions 1 = some
      { messages := [{ role := "system", content := "note" }],
        lastResponse := "", lastTokens := 0, totalTokens := 0 } ∧
    mapLookup c2St4.sessions 1 ≠ none := by
  refine ⟨rfl, rfl, ?_⟩
  intro hc
  rw [show mapLookup c2St4.sessions 1 = some
      { messages := [{ role := "system", content := "note" }],
        lastResponse := "", lastTokens := 0, totalTokens := 0 } from rfl] at hc
  exact Option.noConfusion hc

/-- C2 amended: after `Tclunk(f)` on a bound fid the binding is deleted —
so any subsequent Twalk/Topen/Tread/Twrite/Tstat on f yields
`Rerror "bad fid"` — and the session entry for f is removed exactly when f
was bound to the `ask` file; a session created through the `context` or
`new` files survives the clunk of a fid bound to those nodes. -/
theorem handleClunk_spec (st : SrvState) (fid : Nat) (node : Node)
    (hb : mapLookup st.fids fid = some node) :
    (handleClunk st fid).2 = .rclunk ∧
    mapLookup (handleClunk st fid).1.fids fid = none ∧
    (∀ newfid names,
      (handleWalk (handleClunk st fid).1 fid newfid names).2 = .rerror "bad fid") ∧
    (∀ mode,
      (handleOpen (handleClunk st fid).1 fid mode).2 = .rerror "bad fid") ∧
    (∀ offset count,
      (handleRead (handleClunk st fid).1 fid offset count).2 = .rerror "bad fid") ∧
    (∀ data oracle,
      (handleWrite (handleClunk st fid).1 fid data oracle).2 = .rerror "bad fid") ∧
    ((handleStat (handleClunk st fid).1 fid).2 = .rerror "bad fid") ∧
    (node.isAskFile = true →
      mapLookup (handleClunk st fid).1.sessions fid = none) ∧
    (node.isAskFile = false →
      (handleClunk st fid).1.sessions = st.sessions) := by
  have hcl : handleClunk st fid =
      ({ st with
          fids := mapErase st.fids fid,
          sessions := (if node.isAskFile then smRemove st.sessions fid
                       else st.sessions) }, .rclunk) := by
    simp only [handleClunk, hb]
  have hnone : mapLookup (handleClunk st fid).1.fids fid = none := by
    rw [hcl]
    exact mapLookup_erase_self st.fids fid
  refine ⟨by rw [hcl], hnone, ?_, ?_, ?_, ?_, ?_, ?_, ?_⟩
  · intro newfid names
    simp only [handleWalk, hnone]
  · intro mode
    simp only [handleOpen, hnone]
  · intro offset count
    simp only [handleRead, hnone]
  · intro data oracle
    simp only [handleWrite, hnone]
  · simp only [handleStat, hnone]
  · intro hask
    rw [hcl]
    simp only [hask, if_pos]
    exact mapLookup_erase_self st.sessions fid
  · intro hask
    rw [hcl]
    simp [hask]

/-- Reaching a state with fid 2 bound to `ask` and a live session 2. -/
def c2AskSt : SrvState :=
  (handleWrite (handleWalk (handleAttach exSrv 0).1 0 2 ["ask"]).1
    2 "hello" (.ok "hi" 3)).1

/-- Witness for `handleClunk_spec`: clunking the ask-bound fid 2 replies
`Rclunk`, unbinds it and removes its session. -/
theorem handleClunk_spec_witness :
    (handleClunk c2AskSt 2).2 = .rclunk ∧
    mapLookup (handleClunk c2AskSt 2).1.fids 2 = none ∧
    mapLookup (handleClunk c2AskSt 2).1.sessions 2 = none := by
  have h := handleClunk_spec c2AskSt 2 exAskNode (by rfl)
  exact ⟨h.1, h.2.1, h.2.2.2.2.2.2.2.1 rfl⟩

/-! ## C5 — Twalk -/

theorem walkSteps_error_eq (names : List String) :
    ∀ (cur : Node) (e : String),
      walkSteps cur names = .error e → e = "not a directory" := by
  induction names with
  | nil =>
    intro cur e h
    simp [walkSteps] at h
  | cons name rest ih =>
    intro cur e h
    cases cur with
    | file q m k =>
      simp only [walkSteps] at h
      exact (Except.error.inj h).symm
    | dir q m children =>
      simp only [walkSteps] at h
      split at h
      · simp at h
      · rename_i next hl
        split at h
        · rename_i hw
          cases h
          exact ih next _ hw
        · simp at h

theorem walkSteps_length_le (names : List String) :
    ∀ (cur : Node) (qids : List Qid) (fin : Node),
      walkSteps cur names = .ok (qids, fin) → qids.length ≤ names.length := by
  induction names with
  | nil =>
    intro cur qids fin h
    simp only [walkSteps] at h
    obtain ⟨h1, _⟩ := Prod.mk.injEq .. ▸ (Except.ok.inj h)
    simp [← h1]
  | cons name rest ih =>
    intro cur qids fin h
    cases cur with
    | file q m k => simp [walkSteps] at h
    | dir q m children =>
      simp only [walkSteps] at h
      split at h
      · rename_i hl
        have h1 := (Prod.mk.injEq .. ▸ (Except.ok.inj h)).1
        simp [← h1]
      · rename_i next hl
        split at h
        · simp at h
        · rename_i qs fin' hw
          have hp := Prod.mk.injEq .. ▸ (Except.ok.inj h)
          have := ih next qs fin' hw
          rw [← hp.1]
          simp
          omega

/-- C5.  For a `Twalk(fid, newfid, names)` on a bound fid (with the
newfid-in-use guard passing): the walk runs component by component — the
only possible error is `"not a directory"`, raised when a traversed node
is not a directory, and a failing lookup stops the walk, so the returned
Qid list is a prefix of at most `names.length` Qids; `newfid` is bound to
the reached node exactly when every component resolved; when not all
components resolve the state is unchanged — in particular the binding of
`fid` is preserved even when `newfid = fid`; and a zero-length walk binds
`newfid` to the node `fid` is bound to (clone). -/
theorem handleWalk_spec (st : SrvState) (fid newfid : Nat)
    (names : List String) (node : Node)
    (hb : mapLookup st.fids fid = some node)
    (hguard : ¬(fid ≠ newfid ∧ (mapLookup st.fids newfid).isSome)) :
    (∀ qids cur, walkSteps node names = .ok (qids, cur) →
      (handleWalk st fid newfid names).2 = .rwalk qids ∧
      qids.length ≤ names.length ∧
      (qids.length = names.length →
        mapLookup (handleWalk st fid newfid names).1.fids newfid = some cur) ∧
      (qids.length ≠ names.length →
        (handleWalk st fid newfid names).1 = st)) ∧
    (names = [] →
      (handleWalk st fid newfid names).2 = .rwalk [] ∧
      mapLookup (handleWalk st fid newfid names).1.fids newfid = some node) ∧
    (∀ e, walkSteps node names = .error e →
      e = "not a directory" ∧
      (handleWalk st fid newfid names).2 = .rerror e ∧
      (handleWalk st fid newfid names).1 = st) := by
  refine ⟨?_, ?_, ?_⟩
  · intro qids cur hw
    have hunf : handleWalk st fid newfid names =
        (if qids.length = names.length then
          ({ st with fids := mapInsert st.fids newfid cur }, .rwalk qids)
         else (st, .rwalk qids)) := by
      simp only [handleWalk, hb, if_neg hguard, hw]
    by_cases hlen : qids.length = names.length
    · rw [hunf, if_pos hlen]
      refine ⟨rfl, walkSteps_length_le names node qids cur hw, ?_, ?_⟩
      · intro _
        exact mapLookup_insert_self st.fids newfid cur
      · intro hc
        exact absurd hlen hc
    · rw [hunf, if_neg hlen]
      exact ⟨rfl, walkSteps_length_le names node qids cur hw,
        fun hc => absurd hc hlen, fun _ => rfl⟩
  · intro hnil
    subst hnil
    have hw : walkSteps node [] = .ok ([], node) := rfl
    have hunf : handleWalk st fid newfid [] =
        ({ st with fids := mapInsert st.fids newfid node }, .rwalk []) := by
      simp only [handleWalk, hb, if_neg hguard, hw]
      rfl
    rw [hunf]
    exact ⟨rfl, mapLookup_insert_self st.fids newfid node⟩
  · intro e hw
    have hunf : handleWalk st fid newfid names = (st, .rerror e) := by
      simp only [handleWalk, hb, if_neg hguard, hw]
    exact ⟨walkSteps_error_eq names node e hw, by rw [hunf], by rw [hunf]⟩

/-- Witness for `handleWalk_spec`: walking `["ask"]` from the root binds
fid 1 to the ask node; walking the unknown name `["nope"]` is a partial
walk with zero Qids that changes nothing; a zero-length walk clones. -/
theorem handleWalk_spec_witness :
    ((handleWalk (handleAttach exSrv 0).1 0 1 ["ask"]).2 =
      .rwalk [exAskQid] ∧
     mapLookup (handleWalk (handleAttach exSrv 0).1 0 1 ["ask"]).1.fids 1 =
      some exAskNode) ∧
    ((handleWalk (handleAttach exSrv 0).1 0 1 ["nope"]).2 = .rwalk [] ∧
     (handleWalk (handleAttach exSrv 0).1 0 1 ["nope"]).1 =
      (handleAttach exSrv 0).1) ∧
    mapLookup (handleWalk (handleAttach exSrv 0).1 0 1 []).1.fids 1 =
      some exRoot := by
  have hb : mapLookup (handleAttach exSrv 0).1.fids 0 = some exRoot := rfl
  have hguard : ¬((0 : Nat) ≠ 1 ∧
      (mapLookup (handleAttach exSrv 0).1.fids 1).isSome) := by
    intro hc
    exact absurd hc.2 (by decide)
  have hfull := (handleWalk_spec (handleAttach exSrv 0).1 0 1 ["ask"] exRoot
    hb hguard).1 [exAskQid] exAskNode rfl
  have hpart := (handleWalk_spec (handleAttach exSrv 0).1 0 1 ["nope"] exRoot
    hb hguard).1 [] exRoot rfl
  have hclone := (handleWalk_spec (handleAttach exSrv 0).1 0 1 [] exRoot
    hb hguard).2.1 rfl
  exact ⟨⟨hfull.1, hfull.2.2.1 (by decide)⟩,
    ⟨hpart.1, hpart.2.2.2 (by decide)⟩, hclone.2⟩

end LLM9P
